import Mathlib

/-!
Shallow embedding of the DEXBot2 terminal dashboard core
(src/dashboard/src/{state,actions,app,main}.rs).

External effects (filesystem, the `pm2 jlist` subprocess, action
subprocesses, key events) are modelled by explicit environment values
threaded through the translated functions.  Rust `Result` becomes
`Except String`; Rust in-place mutation becomes explicit state passing.
-/

namespace Dashboard

/-! ## String helpers mirroring the Rust std operations used by the code -/

/-- `needle.isPrefixOf hay`-based substring search over char lists;
`strContainsAux p l` is true iff `p` occurs contiguously in `l`
(Rust `str::contains`). -/
def strContainsAux (p : List Char) : List Char → Bool
  | [] => p.isEmpty
  | c :: cs => List.isPrefixOf p (c :: cs) || strContainsAux p cs

/-- Rust `str::contains` (substring containment). -/
def strContains (s pat : String) : Bool :=
  strContainsAux pat.toList s.toList

/-- Rust `str::to_ascii_uppercase` (per-char, ASCII letters only;
Lean's `Char.toUpper` maps exactly the ASCII range). -/
def asciiUpper (s : String) : String :=
  String.mk (s.toList.map Char.toUpper)

/-- Rust `str::to_lowercase` as used on log file names (per-char). -/
def asciiLower (s : String) : String :=
  String.mk (s.toList.map Char.toLower)

/-- Rust `String::pop`: drop the last character. -/
def strPop (s : String) : String :=
  String.mk s.toList.dropLast

/-- Rust `str::trim_end_matches('\n')`. -/
def trimEndNewlines (s : String) : String :=
  String.mk (s.toList.reverse.dropWhile (fun c => c = '\n')).reverse

/-- Rust `str::trim`: strip whitespace from both ends.  (Implemented
over the character list so that it reduces inside the kernel.) -/
def rustTrim (s : String) : String :=
  String.mk
    (((s.toList.dropWhile Char.isWhitespace).reverse.dropWhile
      Char.isWhitespace).reverse)

/-- `s.endsWith suffix` over character lists. -/
def strEndsWith (s suffix : String) : Bool :=
  List.isPrefixOf suffix.toList.reverse s.toList.reverse

/-- Split a character list at each newline (`str::split('\n')` shape). -/
def splitNl : List Char → List (List Char)
  | [] => [[]]
  | c :: cs =>
    if c = '\n' then [] :: splitNl cs
    else
      match splitNl cs with
      | [] => [[c]]
      | l :: ls => (c :: l) :: ls

/-- Strip one trailing carriage return, as Rust `str::lines` does per line. -/
def stripCR (l : List Char) : List Char :=
  if l.getLast? = some '\r' then l.dropLast else l

/-- Rust `str::lines`: split on newline, strip `\r`, and do not produce a
final empty line for a trailing newline. -/
def rustLines (s : String) : List String :=
  let parts := (splitNl s.toList).map stripCR
  ((if parts.getLast? = some [] then parts.dropLast else parts).map String.mk)

/-! ## Data model (state.rs) -/

structure BotStatus where
  name : String
  pair : String
  active : Bool
  runtime_status : String
  log_path : Option String
  log_tail : List String
  deriving Repr, DecidableEq

structure Snapshot where
  bots : List BotStatus
  warnings : Nat
  pm2_online : Bool
  pm2_processes : Nat
  alerts : List String
  deriving Repr, DecidableEq

/-- One entry of `profiles/bots.json` after serde deserialisation
(struct `BotEntry`): `name`/`active` optional, assets default `""`. -/
structure BotEntry where
  name : Option String
  asset_a : String
  asset_b : String
  active : Option Bool
  deriving Repr, DecidableEq

/-! ## Environment model: pm2, registry file, logs directory -/

/-- One element of the `pm2 jlist` JSON array, reduced to the two fields
the code reads: `name` (as a string, when present and a string) and
`pm2_env.status` (likewise). -/
structure Pm2Item where
  name : Option String
  status : Option String
  deriving Repr, DecidableEq

/-- Outcome of running `pm2 jlist`, at the boundary the code observes:
the four early-return failure shapes, or a parsed JSON array. -/
inductive Pm2Query where
  /-- `Command::output()` returned `Err`. -/
  | spawnError
  /-- the command exited non-zero. -/
  | nonZeroExit
  /-- the payload after the first `[` failed to parse as JSON. -/
  | parseError
  /-- the payload parsed but was not an array. -/
  | notArray
  /-- the payload parsed as a JSON array with these elements. -/
  | items (xs : List Pm2Item)
  deriving Repr, DecidableEq

/-- State of the registry file `profiles/bots.json`. -/
inductive RegistryState where
  /-- `bots_path.exists()` is false. -/
  | absent
  /-- the file exists but `fs::read_to_string` fails with this error. -/
  | unreadable (err : String)
  /-- the file reads fine but is not valid JSON for `BotsFile`. -/
  | malformed (raw : String)
  /-- the file reads and parses; these are the `bots` entries. -/
  | parsed (entries : List BotEntry)
  deriving Repr, DecidableEq

/-- One file inside `profiles/logs`. -/
structure LogFile where
  fname : String
  mtime : Nat
  content : String
  deriving Repr, DecidableEq

/-- Everything `load_snapshot` observes from the outside world. -/
structure Env where
  pm2 : Pm2Query
  registry : RegistryState
  /-- `none` = the `profiles/logs` directory does not exist. -/
  logsDir : Option (List LogFile)
  deriving Repr, DecidableEq

/-! ## load_pm2_status (state.rs:120-160) -/

/-- `HashMap::insert` on an association list: replace in place if the
key is present, else append.  The key list stays duplicate-free. -/
def alistInsert (m : List (String × String)) (k v : String) :
    List (String × String) :=
  if m.any (fun p => p.1 = k) then
    m.map (fun p => if p.1 = k then (k, v) else p)
  else m ++ [(k, v)]

/-- `HashMap::get`. -/
def alistLookup (m : List (String × String)) (k : String) : Option String :=
  (m.find? (fun p => p.1 = k)).map (fun p => p.2)

/-- Body of the `for item in items` loop in `load_pm2_status`: skip an
empty (or missing/non-string) name, else insert name → status
(`"unknown"` when absent). -/
def pm2Step (m : List (String × String)) (item : Pm2Item) :
    List (String × String) :=
  let name := item.name.getD ""
  if name.isEmpty then m
  else
    let status := item.status.getD "unknown"
    alistInsert m name status

/-- state.rs `load_pm2_status`: returns the name→status map and an
online flag; every failure shape degrades to `(∅, false)`. -/
def load_pm2_status (q : Pm2Query) : List (String × String) × Bool :=
  match q with
  | .spawnError => ([], false)
  | .nonZeroExit => ([], false)
  | .parseError => ([], false)
  | .notArray => ([], false)
  | .items xs =>
    let map := xs.foldl pm2Step []
    (map, true)

/-! ## resolve_bot_log_path and tail_lines (state.rs:162-212) -/

/-- Rust `Path::extension() == "log"` for a file name: it ends in
`".log"` and is not exactly `".log"` (a leading-dot-only name has no
extension). -/
def isLogFileName (s : String) : Bool :=
  strEndsWith s ".log" && s ≠ ".log"

/-- Filename filter of the directory scan: the lower-cased file name
contains the lower-cased bot name as a substring. -/
def nameMatches (bot_name : String) (f : LogFile) : Bool :=
  strContains (asciiLower f.fname) (asciiLower bot_name)

/-- state.rs `resolve_bot_log_path`: exact `<name>.log` fast path, else
scan `.log` files, stable-sort by mtime ascending, and take the first
match from the most-recently-modified end. -/
def resolve_bot_log_path (env : Env) (bot_name : String) : Option String :=
  match env.logsDir with
  | none => none
  | some files =>
    if files.any (fun f => f.fname = bot_name ++ ".log") then
      some ("profiles/logs/" ++ bot_name ++ ".log")
    else
      let candidates := files.filter (fun f => isLogFileName f.fname)
      let sorted := List.insertionSort (fun a b => a.mtime ≤ b.mtime) candidates
      ((sorted.reverse).find? (nameMatches bot_name)).map
        (fun f => "profiles/logs/" ++ f.fname)

/-- `fs::read_to_string` for a path of the form `profiles/logs/<fname>`. -/
def readLogFile (env : Env) (path : String) : Option String :=
  match env.logsDir with
  | none => none
  | some files =>
    (files.find? (fun f => "profiles/logs/" ++ f.fname = path)).map
      (fun f => f.content)

/-- state.rs `tail_lines`: last `max_lines` lines, oldest first; empty
on read failure. -/
def tail_lines (env : Env) (path : String) (max_lines : Nat) : List String :=
  match readLogFile env path with
  | none => []
  | some raw => ((rustLines raw).reverse.take max_lines).reverse

/-- state.rs `has_error_marker`. -/
def has_error_marker (line : String) : Bool :=
  let upper := asciiUpper line
  strContains upper "ERROR" || strContains upper "WARN" || strContains upper "FATAL"

/-! ## load_snapshot (state.rs:48-118) -/

/-- Accumulator of the per-entry loop in `load_snapshot`. -/
structure SnapAcc where
  bots : List BotStatus
  warnings : Nat
  alerts : List String
  deriving Repr, DecidableEq

/-- Default name for a registry entry missing `name`: `bot-<n>`, 1-indexed. -/
def entryName (index : Nat) (entry : BotEntry) : String :=
  entry.name.getD ("bot-" ++ toString (index + 1))

/-- The malformed-pair test: either asset string is empty. -/
def pairBad (entry : BotEntry) : Bool :=
  entry.asset_a.isEmpty || entry.asset_b.isEmpty

/-- The `pair` field: sentinel on a malformed pair, else `"A/B"`. -/
def entryPair (entry : BotEntry) : String :=
  if pairBad entry then "?/ ?" else entry.asset_a ++ "/" ++ entry.asset_b

/-- The `BotStatus` the loop body of `load_snapshot` constructs for one
registry entry: live pm2 status wins, else `"not-running"` if active,
else `"disabled"`; log path and tail via §4.2. -/
def mkBot (pm2_map : List (String × String)) (env : Env)
    (ie : Nat × BotEntry) : BotStatus :=
  let index := ie.1
  let entry := ie.2
  let name := entryName index entry
  let active := entry.active.getD true
  let runtime_status :=
    match alistLookup pm2_map name with
    | some status => status
    | none => if active then "not-running" else "disabled"
  let log_path := resolve_bot_log_path env name
  let log_tail :=
    match log_path with
    | some p => tail_lines env p 10
    | none => []
  { name, pair := entryPair entry, active, runtime_status, log_path, log_tail }

/-- The warnings the loop body adds for one entry: +1 for a malformed
pair, +1 for an error marker in the tailed log lines. -/
def entryWarnCount (pm2_map : List (String × String)) (env : Env)
    (ie : Nat × BotEntry) : Nat :=
  (if pairBad ie.2 then 1 else 0) +
  (if (mkBot pm2_map env ie).log_tail.any has_error_marker then 1 else 0)

/-- The alerts the loop body appends for one entry (log markers only). -/
def entryAlerts (pm2_map : List (String × String)) (env : Env)
    (ie : Nat × BotEntry) : List String :=
  if (mkBot pm2_map env ie).log_tail.any has_error_marker then
    [entryName ie.1 ie.2 ++ ": error/warn marker found in recent log lines."]
  else []

/-- Body of the `for (index, entry)` loop in `load_snapshot`: push one
`BotStatus`, bump `warnings` for a malformed pair or a log error marker,
and append any per-bot alert. -/
def stepEntry (pm2_map : List (String × String)) (env : Env)
    (acc : SnapAcc) (ie : Nat × BotEntry) : SnapAcc :=
  { bots := acc.bots ++ [mkBot pm2_map env ie],
    warnings := acc.warnings + entryWarnCount pm2_map env ie,
    alerts := acc.alerts ++ entryAlerts pm2_map env ie }

/-- state.rs `load_snapshot`.  Note the one fallible step: when the
registry file exists, `fs::read_to_string(&bots_path)?` propagates its
error; every other sub-failure degrades into warnings/alerts/defaults. -/
def load_snapshot (env : Env) : Except String Snapshot :=
  let pm2 := load_pm2_status env.pm2
  let pm2_map := pm2.1
  let pm2_online := pm2.2
  let pm2_processes := pm2_map.length
  let warnings0 := if pm2_online then 0 else 1
  let alerts0 : List String :=
    if pm2_online then []
    else ["PM2 unavailable (pm2 jlist failed or not installed)."]
  match env.registry with
  | .unreadable err => .error err
  | .absent =>
    .ok { bots := [], warnings := warnings0 + 1, pm2_online, pm2_processes,
          alerts := alerts0 ++ ["profiles/bots.json not found."] }
  | .malformed _ =>
    .ok { bots := [], warnings := warnings0, pm2_online, pm2_processes,
          alerts := alerts0 }
  | .parsed entries =>
    let acc := entries.enum.foldl (stepEntry pm2_map env)
      { bots := [], warnings := warnings0, alerts := alerts0 }
    .ok { bots := acc.bots, warnings := acc.warnings, pm2_online,
          pm2_processes, alerts := acc.alerts }

/-! ## Action catalogue & executor (actions.rs) -/

inductive Risk where
  | Safe
  | Confirm
  | Danger
  deriving Repr, DecidableEq

def Risk.label : Risk → String
  | .Safe => "safe"
  | .Confirm => "confirm"
  | .Danger => "danger"

structure DashboardAction where
  name : String
  command : String
  args : List String
  risk : Risk
  deriving Repr, DecidableEq

instance : Inhabited DashboardAction :=
  ⟨{ name := "", command := "", args := [], risk := .Safe }⟩

/-- Outcome of spawning an action's external command, at the boundary
`Command::output()` exposes. -/
inductive ExecOutcome where
  /-- `Command::output()` returned `Err` (propagated by the `?`). -/
  | spawnError (msg : String)
  /-- The child ran: `status.success()`, `status.code()`, stdout, stderr. -/
  | finished (success : Bool) (code : Option Int) (stdout stderr : String)
  deriving Repr, DecidableEq

/-- Rust `{:?}` rendering of `Option<i32>` used in the failure message. -/
def fmtCode : Option Int → String
  | some n => "Some(" ++ toString n ++ ")"
  | none => "None"

/-- actions.rs `DashboardAction::execute`: on success the trimmed stdout
(else stderr) prefixed with risk label and name; on failure an error
text carrying label, name, exit code and trimmed stderr. -/
def DashboardAction.execute (a : DashboardAction) (o : ExecOutcome) :
    Except String String :=
  match o with
  | .spawnError msg => .error msg
  | .finished success code stdout stderr =>
    if success then
      let body := if (rustTrim stdout).isEmpty then rustTrim stderr
                  else rustTrim stdout
      .ok ("[" ++ a.risk.label ++ "] " ++ a.name ++ "\n" ++ trimEndNewlines body)
    else
      .error ("[" ++ a.risk.label ++ "] " ++ a.name ++ " failed (code " ++
        fmtCode code ++ ")\n" ++ trimEndNewlines (rustTrim stderr))

/-- actions.rs `dashboard_actions`: the fixed catalogue. -/
def dashboard_actions : List DashboardAction :=
  [ { name := "Check Update Status", command := "bash",
      args := ["scripts/check-update.sh"], risk := .Safe },
    { name := "Validate Bots Config", command := "node",
      args := ["scripts/validate_bots.js"], risk := .Safe },
    { name := "Analyze Orders", command := "node",
      args := ["scripts/analyze-orders.js"], risk := .Safe },
    { name := "Analyze Repo", command := "node",
      args := ["scripts/analyze-git.js"], risk := .Safe },
    { name := "Create Bot Symlinks", command := "bash",
      args := ["scripts/create-bot-symlinks.sh"], risk := .Confirm },
    { name := "Clear Logs", command := "bash",
      args := ["scripts/clear-logs.sh"], risk := .Danger },
    { name := "Clear Orders", command := "bash",
      args := ["scripts/clear-orders.sh"], risk := .Danger },
    { name := "Clear All", command := "bash",
      args := ["scripts/clear-all.sh"], risk := .Danger } ]

/-! ## Application state machine (app.rs) -/

def DANGER_CONFIRM_TOKEN : String := "DELETE"

inductive Tab where
  | Overview
  | BotDetail
  | Scripts
  | Alerts
  deriving Repr, DecidableEq

inductive PendingAction where
  | Confirm (action_index : Nat)
  | Danger (action_index : Nat) (typed : String)
  deriving Repr, DecidableEq

/-- The crossterm key codes the dashboard reacts to. -/
inductive KeyCode where
  | Char (c : Char)
  | Down
  | Up
  | Left
  | Right
  | Tab
  | Esc
  | Backspace
  | Enter
  | Other
  deriving Repr, DecidableEq

/-- app.rs `App`, minus the rendering-library list-state internals kept
as plain `Option Nat` selections, and minus the `Instant` clock (the
tick guard is an explicit input). -/
structure App where
  snapshot : Snapshot
  selected_bot : Nat
  selected_action : Nat
  tab : Tab
  last_output : String
  actions : List DashboardAction
  bot_list_state : Option Nat
  action_list_state : Option Nat
  pending_action : Option PendingAction
  deriving Repr, DecidableEq

/-- The external world one key-handling call can touch: the filesystem
and pm2 view seen by `load_snapshot`, plus the outcome of the one
action-command spawn the call may perform. -/
structure AppEnv where
  fs : Env
  exec : ExecOutcome
  deriving Repr, DecidableEq

namespace App

/-- app.rs `reload_snapshot`: the `?` on `load_snapshot` propagates
before any field is assigned; on success the snapshot is replaced and
the bot selection is clamped (or cleared when empty). -/
def reload_snapshot (self : App) (env : Env) (announce : Bool) :
    Except String App :=
  match load_snapshot env with
  | .error e => .error e
  | .ok snap =>
    let self := { self with snapshot := snap }
    let self :=
      if self.snapshot.bots.isEmpty then
        { self with selected_bot := 0, bot_list_state := none }
      else
        let sb := min self.selected_bot (self.snapshot.bots.length - 1)
        { self with selected_bot := sb, bot_list_state := some sb }
    if announce then .ok { self with last_output := "Refreshed status data." }
    else .ok self

/-- app.rs `refresh`. -/
def refresh (self : App) (env : Env) : Except String App :=
  self.reload_snapshot env true

/-- app.rs `tick`: when at least one second has elapsed, silently reload;
a reload error is caught and reported in `last_output`. -/
def tick (self : App) (env : Env) (elapsed : Bool) : App :=
  if !elapsed then self
  else
    match self.reload_snapshot env false with
    | .ok s => s
    | .error e => { self with last_output := "Auto-refresh failed: " ++ e }

/-- app.rs `next_bot` (wrap forward, clear on empty). -/
def next_bot (self : App) : App :=
  if self.snapshot.bots.isEmpty then
    { self with selected_bot := 0, bot_list_state := none }
  else
    let sb := (self.selected_bot + 1) % self.snapshot.bots.length
    { self with selected_bot := sb, bot_list_state := some sb }

/-- app.rs `prev_bot` (wrap backward, clear on empty). -/
def prev_bot (self : App) : App :=
  if self.snapshot.bots.isEmpty then
    { self with selected_bot := 0, bot_list_state := none }
  else
    let sb := if self.selected_bot = 0 then self.snapshot.bots.length - 1
              else self.selected_bot - 1
    { self with selected_bot := sb, bot_list_state := some sb }

/-- app.rs `next_action`. -/
def next_action (self : App) : App :=
  if self.actions.isEmpty then
    { self with selected_action := 0, action_list_state := none }
  else
    let sa := (self.selected_action + 1) % self.actions.length
    { self with selected_action := sa, action_list_state := some sa }

/-- app.rs `prev_action`. -/
def prev_action (self : App) : App :=
  if self.actions.isEmpty then
    { self with selected_action := 0, action_list_state := none }
  else
    let sa := if self.selected_action = 0 then self.actions.length - 1
              else self.selected_action - 1
    { self with selected_action := sa, action_list_state := some sa }

/-- app.rs `next_tab` (4-tab ring, forward). -/
def next_tab (self : App) : App :=
  { self with tab :=
      match self.tab with
      | .Overview => .BotDetail
      | .BotDetail => .Scripts
      | .Scripts => .Alerts
      | .Alerts => .Overview }

/-- app.rs `prev_tab` (4-tab ring, backward). -/
def prev_tab (self : App) : App :=
  { self with tab :=
      match self.tab with
      | .Overview => .Alerts
      | .BotDetail => .Overview
      | .Scripts => .BotDetail
      | .Alerts => .Scripts }

/-- app.rs `execute_action`: run the catalogue entry at `index`; fold
its result (ok text or error text) into `last_output`; on success a
silent snapshot reload follows whose own failure is discarded
(`let _ = ...`).  In-range indexing is the callers' invariant; out of
range is rendered by `getD` where Rust would panic. -/
def execute_action (self : App) (env : AppEnv) (index : Nat) :
    Except String App :=
  if self.actions.isEmpty then .ok self
  else
    let action := self.actions.getD index default
    match action.execute env.exec with
    | .ok output =>
      let self := { self with last_output := output }
      match self.reload_snapshot env.fs false with
      | .ok s => .ok s
      | .error _ => .ok self
    | .error err => .ok { self with last_output := err }

/-- app.rs `run_selected_action`: dispatch on the selected action's risk
tier — Safe executes immediately, Confirm/Danger arm a pending
confirmation. -/
def run_selected_action (self : App) (env : AppEnv) : Except String App :=
  if self.actions.isEmpty then
    .ok { self with last_output := "No actions configured." }
  else
    let sa := self.selected_action % self.actions.length
    let self := { self with selected_action := sa, action_list_state := some sa }
    let action := self.actions.getD sa default
    match action.risk with
    | .Safe => self.execute_action env sa
    | .Confirm =>
      .ok { self with pending_action := some (.Confirm sa) }
    | .Danger =>
      .ok { self with pending_action := some (.Danger sa "") }

/-- app.rs `handle_pending_key`: the modal confirmation handler.
Returns the new state and the quit flag (always false here). -/
def handle_pending_key (self : App) (env : AppEnv) (code : KeyCode) :
    Except String (App × Bool) :=
  match self.pending_action with
  | none => .ok (self, false)
  | some (.Confirm action_index) =>
    match code with
    | .Char c =>
      if c = 'y' ∨ c = 'Y' then
        match ({ self with pending_action := none }).execute_action env
            action_index with
        | .ok s => .ok (s, false)
        | .error e => .error e
      else if c = 'n' ∨ c = 'N' then
        .ok ({ self with
               pending_action := none,
               last_output := "Action cancelled." }, false)
      else .ok (self, false)
    | .Esc =>
      .ok ({ self with
             pending_action := none,
             last_output := "Action cancelled." }, false)
    | _ => .ok (self, false)
  | some (.Danger action_index typed) =>
    match code with
    | .Esc =>
      .ok ({ self with
             pending_action := none,
             last_output := "Danger action cancelled." }, false)
    | .Backspace =>
      .ok ({ self with
             pending_action := some (.Danger action_index (strPop typed)) },
           false)
    | .Enter =>
      if typed = DANGER_CONFIRM_TOKEN then
        match ({ self with pending_action := none }).execute_action env
            action_index with
        | .ok s => .ok (s, false)
        | .error e => .error e
      else
        .ok ({ self with
               last_output := "Confirmation token mismatch. Type " ++
                 DANGER_CONFIRM_TOKEN ++ " and press Enter." }, false)
    | .Char c =>
      if c.isAlphanum ∧ typed.length < DANGER_CONFIRM_TOKEN.length then
        .ok ({ self with
               pending_action :=
                 some (.Danger action_index (typed.push c.toUpper)) }, false)
      else .ok (self, false)
    | _ => .ok (self, false)

/-- app.rs `handle_key`: top-level dispatch; while a confirmation is
pending every key goes to `handle_pending_key`. -/
def handle_key (self : App) (env : AppEnv) (code : KeyCode) :
    Except String (App × Bool) :=
  if self.pending_action.isSome then self.handle_pending_key env code
  else
    match code with
    | .Char c =>
      if c = 'q' then .ok (self, true)
      else if c = 'r' then
        match self.refresh env.fs with
        | .ok s => .ok (s, false)
        | .error e => .error e
      else if c = 'j' then
        .ok ((if self.tab = Tab.Scripts then self.next_action
              else self.next_bot), false)
      else if c = 'k' then
        .ok ((if self.tab = Tab.Scripts then self.prev_action
              else self.prev_bot), false)
      else if c = 'x' then
        match self.run_selected_action env with
        | .ok s => .ok (s, false)
        | .error e => .error e
      else .ok (self, false)
    | .Down =>
      .ok ((if self.tab = Tab.Scripts then self.next_action
            else self.next_bot), false)
    | .Up =>
      .ok ((if self.tab = Tab.Scripts then self.prev_action
            else self.prev_bot), false)
    | .Right => .ok (self.next_tab, false)
    | .Tab => .ok (self.next_tab, false)
    | .Left => .ok (self.prev_tab, false)
    | _ => .ok (self, false)

end App

/-! ## Run loop (main.rs `run`) -/

/-- One iteration's external inputs: whether the 1-second tick guard
fires, the filesystem view the tick sees, and the polled key event (with
the world its handling sees), if any. -/
structure StepInput where
  tickDue : Bool
  tickEnv : Env
  key : Option (AppEnv × KeyCode)

/-- How a finite prefix of the (conceptually infinite) loop ended. -/
inductive RunOutcome where
  /-- `handle_key` returned true: the loop broke, `run` returns `Ok`. -/
  | quit (a : App)
  /-- inputs exhausted with the loop still going. -/
  | running (a : App)
  deriving Repr, DecidableEq

/-- main.rs `run`, driven by a finite list of iteration inputs: tick,
then handle the polled key; a `handle_key` error propagates out of the
loop via the `?`. -/
def run (a : App) : List StepInput → Except String RunOutcome
  | [] => .ok (.running a)
  | s :: rest =>
    let a := a.tick s.tickEnv s.tickDue
    match s.key with
    | none => run a rest
    | some (env, code) =>
      match a.handle_key env code with
      | .error e => .error e
      | .ok (a', true) => .ok (.quit a')
      | .ok (a', false) => run a' rest

/-- Test driver: feed a list of keys through `handle_key` with a fixed
environment, keeping the current state if a call errors (the real loop
would abort there; the fallback never fires in the runs proved below). -/
def feedKeys (a : App) (env : AppEnv) : List KeyCode → App
  | [] => a
  | k :: ks =>
    match a.handle_key env k with
    | .ok (a', _) => feedKeys a' env ks
    | .error _ => a

/-! ## Shared lemmas -/

/-- `reload_snapshot` only touches the snapshot, the bot selection, and
(when announcing) the last output. -/
theorem App.reload_snapshot_frame (self : App) (env : Env) (announce : Bool)
    (a' : App) (h : self.reload_snapshot env announce = .ok a') :
    a'.pending_action = self.pending_action ∧ a'.tab = self.tab ∧
    a'.selected_action = self.selected_action ∧ a'.actions = self.actions ∧
    a'.action_list_state = self.action_list_state ∧
    (announce = false → a'.last_output = self.last_output) := by
  unfold App.reload_snapshot at h
  cases hl : load_snapshot env with
  | error e => rw [hl] at h; cases h
  | ok snap =>
    rw [hl] at h
    simp only [] at h
    split at h <;> split at h <;>
      simp_all only [Except.ok.injEq] <;> subst h <;> simp_all

/-- The text `execute_action` folds into `last_output`: the action's
success output, or its error text. -/
def execMessage (a : DashboardAction) (o : ExecOutcome) : String :=
  match a.execute o with
  | .ok out => out
  | .error e => e

theorem execMessage_of_ok {a : DashboardAction} {o : ExecOutcome} {out : String}
    (h : a.execute o = .ok out) : execMessage a o = out := by
  unfold execMessage; rw [h]

theorem execMessage_of_error {a : DashboardAction} {o : ExecOutcome} {e : String}
    (h : a.execute o = .error e) : execMessage a o = e := by
  unfold execMessage; rw [h]

/-- `execute_action` never returns an error, leaves the pending state,
tab, action selection and catalogue alone, and (when the catalogue is
non-empty) sets `last_output` to the action's own result text. -/
theorem App.execute_action_spec (self : App) (env : AppEnv) (index : Nat) :
    ∃ a', self.execute_action env index = .ok a' ∧
      a'.pending_action = self.pending_action ∧
      a'.tab = self.tab ∧ a'.selected_action = self.selected_action ∧
      a'.actions = self.actions ∧
      a'.action_list_state = self.action_list_state ∧
      (self.actions.isEmpty = false →
        a'.last_output = execMessage (self.actions.getD index default) env.exec) := by
  by_cases hne : self.actions.isEmpty
  · refine ⟨self, ?_, rfl, rfl, rfl, rfl, rfl, ?_⟩
    · unfold App.execute_action
      rw [if_pos hne]
    · intro hfalse; rw [hne] at hfalse; cases hfalse
  · cases hx : (self.actions.getD index default).execute env.exec with
    | error e =>
      refine ⟨{ self with last_output := e }, ?_, rfl, rfl, rfl, rfl, rfl, ?_⟩
      · unfold App.execute_action
        rw [if_neg hne]
        simp only [hx]
      · intro _
        exact (execMessage_of_error hx).symm
    | ok o =>
      cases hr : ({ self with last_output := o } : App).reload_snapshot
          env.fs false with
      | ok s =>
        have hf := App.reload_snapshot_frame _ _ _ _ hr
        refine ⟨s, ?_, hf.1, hf.2.1, hf.2.2.1, hf.2.2.2.1, hf.2.2.2.2.1, ?_⟩
        · unfold App.execute_action
          rw [if_neg hne]
          simp only [hx, hr]
        · intro _
          rw [execMessage_of_ok hx]
          exact hf.2.2.2.2.2 rfl
      | error e =>
        refine ⟨{ self with last_output := o }, ?_, rfl, rfl, rfl, rfl, rfl, ?_⟩
        · unfold App.execute_action
          rw [if_neg hne]
          simp only [hx, hr]
        · intro _
          exact (execMessage_of_ok hx).symm

/-- Re-writing the pending slot with its current value is the identity. -/
theorem App.update_pending_self (a : App) (v : Option PendingAction)
    (h : a.pending_action = v) : { a with pending_action := v } = a := by
  cases a
  simp_all

/-- `handle_pending_key` is total, never requests a quit, and leaves the
tab, action selection and catalogue untouched. -/
theorem App.handle_pending_spec (self : App) (env : AppEnv) (code : KeyCode) :
    ∃ a', self.handle_pending_key env code = .ok (a', false) ∧
      a'.tab = self.tab ∧ a'.selected_action = self.selected_action ∧
      a'.action_list_state = self.action_list_state ∧
      a'.actions = self.actions := by
  unfold App.handle_pending_key
  cases hp : self.pending_action with
  | none => exact ⟨self, rfl, rfl, rfl, rfl, rfl⟩
  | some pending =>
    cases pending with
    | Confirm action_index =>
      cases code with
      | Char c =>
        by_cases hy : c = 'y' ∨ c = 'Y'
        · obtain ⟨a', ha, hpend, htab, hsel, hact, hals, hlast⟩ :=
            App.execute_action_spec { self with pending_action := none } env
              action_index
          refine ⟨a', ?_, htab, hsel, hals, hact⟩
          simp only [hy, if_true, ha]
        · by_cases hn : c = 'n' ∨ c = 'N'
          · refine ⟨{ self with
                      pending_action := none,
                      last_output := "Action cancelled." }, ?_, rfl, rfl, rfl, rfl⟩
            simp only [hy, hn, if_true, if_false]
          · refine ⟨self, ?_, rfl, rfl, rfl, rfl⟩
            simp only [hy, hn, if_false]
      | Esc => exact ⟨_, rfl, rfl, rfl, rfl, rfl⟩
      | Down => exact ⟨self, rfl, rfl, rfl, rfl, rfl⟩
      | Up => exact ⟨self, rfl, rfl, rfl, rfl, rfl⟩
      | Left => exact ⟨self, rfl, rfl, rfl, rfl, rfl⟩
      | Right => exact ⟨self, rfl, rfl, rfl, rfl, rfl⟩
      | Tab => exact ⟨self, rfl, rfl, rfl, rfl, rfl⟩
      | Backspace => exact ⟨self, rfl, rfl, rfl, rfl, rfl⟩
      | Enter => exact ⟨self, rfl, rfl, rfl, rfl, rfl⟩
      | Other => exact ⟨self, rfl, rfl, rfl, rfl, rfl⟩
    | Danger action_index typed =>
      cases code with
      | Char c =>
        by_cases hc : c.isAlphanum = true ∧ typed.length < DANGER_CONFIRM_TOKEN.length
        · refine ⟨{ self with
                    pending_action :=
                      some (PendingAction.Danger action_index
                        (typed.push c.toUpper)) }, ?_, rfl, rfl, rfl, rfl⟩
          simp only [hc, and_self, if_true]
        · refine ⟨self, ?_, rfl, rfl, rfl, rfl⟩
          simp only [hc, if_false]
      | Enter =>
        by_cases ht : typed = DANGER_CONFIRM_TOKEN
        · obtain ⟨a', ha, hpend, htab, hsel, hact, hals, hlast⟩ :=
            App.execute_action_spec { self with pending_action := none } env
              action_index
          refine ⟨a', ?_, htab, hsel, hals, hact⟩
          simp only [ht, if_true, ha]
        · refine ⟨{ self with
                    last_output := "Confirmation token mismatch. Type " ++
                      DANGER_CONFIRM_TOKEN ++ " and press Enter." },
            ?_, rfl, rfl, rfl, rfl⟩
          simp only [ht, if_false, hp]
      | Esc => exact ⟨_, rfl, rfl, rfl, rfl, rfl⟩
      | Backspace => exact ⟨_, rfl, rfl, rfl, rfl, rfl⟩
      | Down => exact ⟨self, rfl, rfl, rfl, rfl, rfl⟩
      | Up => exact ⟨self, rfl, rfl, rfl, rfl, rfl⟩
      | Left => exact ⟨self, rfl, rfl, rfl, rfl, rfl⟩
      | Right => exact ⟨self, rfl, rfl, rfl, rfl, rfl⟩
      | Tab => exact ⟨self, rfl, rfl, rfl, rfl, rfl⟩
      | Other => exact ⟨self, rfl, rfl, rfl, rfl, rfl⟩

/-- Unrolling of the per-entry loop accumulator. -/
theorem foldl_stepEntry (pm2_map : List (String × String)) (env : Env) :
    ∀ (l : List (Nat × BotEntry)) (acc : SnapAcc),
      l.foldl (stepEntry pm2_map env) acc =
        { bots := acc.bots ++ l.map (mkBot pm2_map env),
          warnings := acc.warnings + (l.map (entryWarnCount pm2_map env)).sum,
          alerts := acc.alerts ++ l.flatMap (entryAlerts pm2_map env) }
  | [], acc => by simp
  | ie :: l, acc => by
    rw [List.foldl_cons, foldl_stepEntry pm2_map env l]
    simp [stepEntry, Nat.add_assoc]

/-- The base warning/alert from an offline process source. -/
def pm2Warn (env : Env) : Nat :=
  if (load_pm2_status env.pm2).2 then 0 else 1

/-- The base alerts list from an offline process source. -/
def pm2Alerts (env : Env) : List String :=
  if (load_pm2_status env.pm2).2 then []
  else ["PM2 unavailable (pm2 jlist failed or not installed)."]

theorem load_snapshot_unreadable (env : Env) (e : String)
    (h : env.registry = RegistryState.unreadable e) :
    load_snapshot env = .error e := by
  simp only [load_snapshot, h]

theorem load_snapshot_absent (env : Env)
    (h : env.registry = RegistryState.absent) :
    load_snapshot env = .ok
      { bots := [], warnings := pm2Warn env + 1,
        pm2_online := (load_pm2_status env.pm2).2,
        pm2_processes := (load_pm2_status env.pm2).1.length,
        alerts := pm2Alerts env ++ ["profiles/bots.json not found."] } := by
  simp only [load_snapshot, h, pm2Warn, pm2Alerts]

theorem load_snapshot_malformed (env : Env) (raw : String)
    (h : env.registry = RegistryState.malformed raw) :
    load_snapshot env = .ok
      { bots := [], warnings := pm2Warn env,
        pm2_online := (load_pm2_status env.pm2).2,
        pm2_processes := (load_pm2_status env.pm2).1.length,
        alerts := pm2Alerts env } := by
  simp only [load_snapshot, h, pm2Warn, pm2Alerts]

theorem load_snapshot_parsed (env : Env) (entries : List BotEntry)
    (h : env.registry = RegistryState.parsed entries) :
    load_snapshot env = .ok
      { bots := entries.enum.map (mkBot (load_pm2_status env.pm2).1 env),
        warnings := pm2Warn env +
          (entries.enum.map (entryWarnCount (load_pm2_status env.pm2).1 env)).sum,
        pm2_online := (load_pm2_status env.pm2).2,
        pm2_processes := (load_pm2_status env.pm2).1.length,
        alerts := pm2Alerts env ++
          entries.enum.flatMap (entryAlerts (load_pm2_status env.pm2).1 env) } := by
  simp only [load_snapshot, h, pm2Warn, pm2Alerts]
  rw [foldl_stepEntry]
  simp

/-- Sum of 0/1 indicators is `countP`. -/
theorem sum_map_ite_eq_countP {α : Type} (p : α → Bool) :
    ∀ l : List α, (l.map (fun a => if p a then 1 else 0)).sum = l.countP p
  | [] => by simp
  | a :: l => by
    by_cases hpa : p a = true <;>
      simp [hpa, List.countP_cons, sum_map_ite_eq_countP p l] <;> omega

/-- Sums distribute over a pointwise-added map. -/
theorem sum_map_add {α : Type} (f g : α → Nat) :
    ∀ l : List α, (l.map (fun a => f a + g a)).sum = (l.map f).sum + (l.map g).sum
  | [] => by simp
  | a :: l => by
    simp [sum_map_add f g l]
    omega

/-! ## Concrete fixtures -/

/-- A world with pm2 unavailable, no registry file, no logs directory. -/
def fsAbsent : Env :=
  { pm2 := .spawnError, registry := .absent, logsDir := none }

/-- A world where the registry file exists but cannot be read. -/
def fsUnreadable : Env :=
  { pm2 := .spawnError, registry := .unreadable "disk error", logsDir := none }

/-- A world where the registry file exists but holds broken JSON. -/
def fsMalformed : Env :=
  { pm2 := .spawnError, registry := .malformed "not json", logsDir := none }

def snap0 : Snapshot :=
  { bots := [], warnings := 0, pm2_online := false, pm2_processes := 0,
    alerts := [] }

/-- A freshly started app state (catalogue loaded, nothing pending). -/
def app0 : App :=
  { snapshot := snap0, selected_bot := 0, selected_action := 0,
    tab := .Overview, last_output := "Ready.", actions := dashboard_actions,
    bot_list_state := none, action_list_state := some 0,
    pending_action := none }

/-- Key-handling environment whose refresh hits the unreadable registry. -/
def envRefreshFail : AppEnv :=
  { fs := fsUnreadable, exec := .finished true (some 0) "" "" }

/-- Key-handling environment with a succeeding action command. -/
def envExecOk : AppEnv :=
  { fs := fsAbsent, exec := .finished true (some 0) "ok" "" }

/-- The snapshot `load_snapshot` builds in `fsMalformed`. -/
def snapMalFixture : Snapshot :=
  { bots := [], warnings := 1, pm2_online := false, pm2_processes := 0,
    alerts := ["PM2 unavailable (pm2 jlist failed or not installed)."] }

/-- The snapshot `load_snapshot` builds in `fsAbsent`. -/
def snapAbsFixture : Snapshot :=
  { bots := [], warnings := 2, pm2_online := false, pm2_processes := 0,
    alerts := ["PM2 unavailable (pm2 jlist failed or not installed).",
               "profiles/bots.json not found."] }

/-! ## C1 -/

/-- C1, counterexample: `load_snapshot` is not total — when the registry
file exists but `fs::read_to_string` fails (state.rs:62 uses `?`), the
error propagates to the caller. -/
theorem C1_counterexample :
    load_snapshot fsUnreadable = Except.error "disk error" := rfl

/-- C1, amended: `load_snapshot` returns a `Snapshot` for every
environment in which the registry file is absent, malformed, or parses —
i.e. whenever the one fallible step, reading an existing registry file,
does not fail.  Every other sub-failure (pm2 unavailable, malformed
JSON, missing logs) degrades into warnings/alerts or defaults. -/
theorem C1_load_snapshot_total_amended (env : Env)
    (h : ∀ e, env.registry ≠ RegistryState.unreadable e) :
    ∃ snap, load_snapshot env = Except.ok snap := by
  cases hr : env.registry with
  | unreadable e => exact absurd hr (h e)
  | absent => exact ⟨_, load_snapshot_absent env hr⟩
  | malformed raw => exact ⟨_, load_snapshot_malformed env raw hr⟩
  | parsed entries => exact ⟨_, load_snapshot_parsed env entries hr⟩

/-- C1, witness. -/
theorem C1_load_snapshot_total_amended_witness :
    ∃ snap, load_snapshot fsAbsent = Except.ok snap :=
  C1_load_snapshot_total_amended fsAbsent (fun _ h => RegistryState.noConfusion h)

/-! ## C2 -/

/-- C2, counterexample: a failing manual refresh does not become
`last_output` — `handle_key` returns the error itself (app.rs:181
`self.refresh()?`), and the run loop terminates with that error
(main.rs:47 `app.handle_key(key.code)?`), so the dashboard does not
keep running. -/
theorem C2_counterexample :
    app0.handle_key envRefreshFail (KeyCode.Char 'r') =
      Except.error "disk error" ∧
    run app0 [{ tickDue := false, tickEnv := fsAbsent,
                key := some (envRefreshFail, KeyCode.Char 'r') }] =
      Except.error "disk error" := ⟨rfl, rfl⟩

/-- C2, amended: when a manual refresh's snapshot rebuild fails, the
stored snapshot is never replaced (the `?` fires before assignment),
but the error is not surfaced as last-output: it propagates out of
`handle_key` and terminates the run loop with that error.  (Only the
periodic auto-refresh catches the failure into last-output.) -/
theorem C2_manual_refresh_error_amended (app : App) (env : AppEnv) (e : String)
    (hp : app.pending_action = none)
    (hr : env.fs.registry = RegistryState.unreadable e) :
    app.handle_key env (KeyCode.Char 'r') = Except.error e ∧
    (∀ tenv, run app [{ tickDue := false, tickEnv := tenv,
                        key := some (env, KeyCode.Char 'r') }] =
      Except.error e) := by
  have hl : load_snapshot env.fs = Except.error e :=
    load_snapshot_unreadable env.fs e hr
  have hk : app.handle_key env (KeyCode.Char 'r') = Except.error e := by
    simp [App.handle_key, hp, App.refresh, App.reload_snapshot, hl]
  refine ⟨hk, fun tenv => ?_⟩
  simp [run, App.tick, hk]

/-- C2, witness. -/
theorem C2_manual_refresh_error_amended_witness :
    app0.handle_key envRefreshFail (KeyCode.Char 'r') =
      Except.error "disk error" ∧
    (∀ tenv, run app0 [{ tickDue := false, tickEnv := tenv,
                         key := some (envRefreshFail, KeyCode.Char 'r') }] =
      Except.error "disk error") :=
  C2_manual_refresh_error_amended app0 envRefreshFail "disk error" rfl rfl

/-! ## C10 -/

/-- C10: a malformed (but readable) registry yields zero bots and no
extra warning or alert beyond the pm2 baseline, while a missing
registry file adds exactly one warning and one alert. -/
theorem C10_malformed_vs_absent_registry :
    (∀ (env : Env) raw s, env.registry = RegistryState.malformed raw →
      load_snapshot env = Except.ok s →
      s.bots = [] ∧ s.warnings = pm2Warn env ∧ s.alerts = pm2Alerts env) ∧
    (∀ (env : Env) s, env.registry = RegistryState.absent →
      load_snapshot env = Except.ok s →
      s.bots = [] ∧ s.warnings = pm2Warn env + 1 ∧
      s.alerts = pm2Alerts env ++ ["profiles/bots.json not found."]) := by
  constructor
  · intro env raw s hreg hs
    rw [load_snapshot_malformed env raw hreg] at hs
    cases hs
    exact ⟨rfl, rfl, rfl⟩
  · intro env s hreg hs
    rw [load_snapshot_absent env hreg] at hs
    cases hs
    exact ⟨rfl, rfl, rfl⟩

/-- C10, witness. -/
theorem C10_malformed_vs_absent_registry_witness :
    (snapMalFixture.bots = [] ∧ snapMalFixture.warnings = pm2Warn fsMalformed ∧
      snapMalFixture.alerts = pm2Alerts fsMalformed) ∧
    (snapAbsFixture.bots = [] ∧ snapAbsFixture.warnings = pm2Warn fsAbsent + 1 ∧
      snapAbsFixture.alerts =
        pm2Alerts fsAbsent ++ ["profiles/bots.json not found."]) :=
  ⟨C10_malformed_vs_absent_registry.1 fsMalformed "not json" snapMalFixture
      rfl rfl,
   C10_malformed_vs_absent_registry.2 fsAbsent snapAbsFixture rfl rfl⟩

/-! ## C9 -/

/-- Keys of `alistInsert`: unchanged when the key is present, appended
otherwise. -/
theorem alistInsert_keys (m : List (String × String)) (k v : String) :
    (alistInsert m k v).map Prod.fst =
      if k ∈ m.map Prod.fst then m.map Prod.fst else m.map Prod.fst ++ [k] := by
  have hmem : (m.any (fun p => p.1 = k) = true) ↔ k ∈ m.map Prod.fst := by
    rw [List.any_eq_true]
    constructor
    · rintro ⟨p, hp, hpk⟩
      have hk : p.1 = k := by simpa using hpk
      exact hk ▸ List.mem_map_of_mem Prod.fst hp
    · intro hk
      obtain ⟨p, hp, hpk⟩ := List.mem_map.mp hk
      exact ⟨p, hp, by simp [hpk]⟩
  unfold alistInsert
  by_cases hk : m.any (fun p => p.1 = k) = true
  · rw [if_pos hk, if_pos (hmem.mp hk), List.map_map]
    refine List.map_congr_left ?_
    intro p _
    by_cases hpk : p.1 = k
    · simp [hpk]
    · simp [hpk]
  · rw [if_neg hk, if_neg (fun hin => hk (hmem.mpr hin)), List.map_append]
    rfl

/-- The non-empty names a `pm2 jlist` payload contributes. -/
def pm2Names (xs : List Pm2Item) : List String :=
  (xs.map (fun it => it.name.getD "")).filter (fun n => !n.isEmpty)

/-- Keys accumulated by the pm2 fold: as a set, the starting keys plus
the payload's non-empty names; and key-distinctness is preserved. -/
theorem pm2_fold_keys :
    ∀ (xs : List Pm2Item) (m : List (String × String)),
      ((xs.foldl pm2Step m).map Prod.fst).toFinset =
        (m.map Prod.fst).toFinset ∪ (pm2Names xs).toFinset ∧
      ((m.map Prod.fst).Nodup → ((xs.foldl pm2Step m).map Prod.fst).Nodup)
  | [], m => by simp [pm2Names]
  | it :: xs, m => by
    rw [List.foldl_cons]
    by_cases hn : (it.name.getD "").isEmpty = true
    · have hstep : pm2Step m it = m := by
        unfold pm2Step
        rw [if_pos hn]
      rw [hstep]
      have hx := pm2_fold_keys xs m
      constructor
      · rw [hx.1]
        have : pm2Names (it :: xs) = pm2Names xs := by
          simp [pm2Names, hn]
        rw [this]
      · exact hx.2
    · have hstep : pm2Step m it =
          alistInsert m (it.name.getD "") (it.status.getD "unknown") := by
        unfold pm2Step
        rw [if_neg hn]
      rw [hstep]
      have hkeys := alistInsert_keys m (it.name.getD "") (it.status.getD "unknown")
      have hx := pm2_fold_keys xs
        (alistInsert m (it.name.getD "") (it.status.getD "unknown"))
      have hnames : pm2Names (it :: xs) =
          (it.name.getD "") :: pm2Names xs := by
        simp [pm2Names, hn]
      have hset : ((alistInsert m (it.name.getD "")
            (it.status.getD "unknown")).map Prod.fst).toFinset =
          insert (it.name.getD "") ((m.map Prod.fst).toFinset) := by
        rw [hkeys]
        by_cases hin : (it.name.getD "") ∈ m.map Prod.fst
        · rw [if_pos hin, Finset.insert_eq_self.mpr (List.mem_toFinset.mpr hin)]
        · rw [if_neg hin, List.toFinset_append]
          simp [Finset.union_comm, Finset.insert_eq]
      constructor
      · rw [hx.1, hset, hnames]
        simp [Finset.insert_union, Finset.union_insert]
      · intro hnd
        refine hx.2 ?_
        rw [hkeys]
        by_cases hin : (it.name.getD "") ∈ m.map Prod.fst
        · rw [if_pos hin]; exact hnd
        · rw [if_neg hin]
          simp [List.nodup_append, hnd, hin]

/-- The length of the pm2 map is the number of distinct non-empty names
in the payload. -/
theorem load_pm2_status_items_length (xs : List Pm2Item) :
    (load_pm2_status (.items xs)).1.length = (pm2Names xs).toFinset.card := by
  have hk := pm2_fold_keys xs []
  have hnodup : ((xs.foldl pm2Step []).map Prod.fst).Nodup := hk.2 (by simp)
  have hlen : (xs.foldl pm2Step []).length =
      ((xs.foldl pm2Step []).map Prod.fst).length := (List.length_map _ _).symm
  have hcard := List.toFinset_card_of_nodup hnodup
  have hset := hk.1
  simp only [List.map_nil, List.toFinset_nil, Finset.empty_union] at hset
  calc (load_pm2_status (.items xs)).1.length
      = (xs.foldl pm2Step []).length := rfl
    _ = ((xs.foldl pm2Step []).map Prod.fst).length := hlen
    _ = ((xs.foldl pm2Step []).map Prod.fst).toFinset.card := hcard.symm
    _ = (pm2Names xs).toFinset.card := by rw [hset]

/-- Every successful `load_snapshot` reports `pm2_processes` as the
pm2 map's size, whatever the registry state. -/
theorem load_snapshot_pm2_processes (env : Env) (s : Snapshot)
    (hs : load_snapshot env = Except.ok s) :
    s.pm2_processes = (load_pm2_status env.pm2).1.length := by
  cases hr : env.registry with
  | unreadable e => rw [load_snapshot_unreadable env e hr] at hs; cases hs
  | absent => rw [load_snapshot_absent env hr] at hs; cases hs; rfl
  | malformed raw => rw [load_snapshot_malformed env raw hr] at hs; cases hs; rfl
  | parsed entries => rw [load_snapshot_parsed env entries hr] at hs; cases hs; rfl

/-- A pm2 payload with three elements, two sharing a name and one
nameless. -/
def dupItems : List Pm2Item :=
  [{ name := some "a", status := some "online" },
   { name := some "a", status := some "stopped" },
   { name := none, status := some "errored" }]

def envDup : Env :=
  { pm2 := .items dupItems, registry := .absent, logsDir := none }

/-- The snapshot `load_snapshot` builds in `envDup`. -/
def snapDup : Snapshot :=
  { bots := [], warnings := 1, pm2_online := true, pm2_processes := 1,
    alerts := ["profiles/bots.json not found."] }

/-- C9, counterexample: a successful supervisor query whose JSON array
has K = 3 elements (two sharing a name, one nameless) yields
`pm2_processes = 1`, not 3 — the map collapses repeats and drops
nameless elements. -/
theorem C9_counterexample :
    load_snapshot envDup = Except.ok snapDup ∧ dupItems.length = 3 ∧
    snapDup.pm2_processes = 1 ∧ snapDup.pm2_processes ≠ dupItems.length :=
  ⟨rfl, rfl, rfl, by decide⟩

/-- C9, amended: for a successful supervisor query, `pm2_processes` is
the number of *distinct non-empty* names among the payload's elements
(still independent of the registry: unrelated names count too, but
repeated names count once and nameless elements not at all). -/
theorem C9_process_count_distinct_names (env : Env) (xs : List Pm2Item)
    (s : Snapshot) (hq : env.pm2 = .items xs)
    (hs : load_snapshot env = Except.ok s) :
    s.pm2_processes = (pm2Names xs).toFinset.card := by
  rw [load_snapshot_pm2_processes env s hs, hq,
    load_pm2_status_items_length xs]

/-- C9, witness. -/
theorem C9_process_count_distinct_names_witness :
    snapDup.pm2_processes = (pm2Names dupItems).toFinset.card :=
  C9_process_count_distinct_names envDup dupItems snapDup rfl rfl

/-! ## C8 -/

/-- C8: a Safe-tier selected action executes within the same
`run_selected_action` call (no further input), the pending state is
untouched, and `last_output` ends up holding exactly the action's own
result text (success output or error text) — for *every* filesystem
environment, so the silent snapshot rebuild that follows a success can
never clobber it. -/
theorem C8_safe_action_immediate (app : App) (env : AppEnv)
    (hne : app.actions.isEmpty = false)
    (hrisk : (app.actions.getD (app.selected_action % app.actions.length)
        default).risk = Risk.Safe) :
    ∃ a', app.run_selected_action env = Except.ok a' ∧
      a'.pending_action = app.pending_action ∧
      a'.last_output = execMessage
        (app.actions.getD (app.selected_action % app.actions.length) default)
        env.exec := by
  obtain ⟨a', ha, hpend, _, _, hact, _, hlast⟩ :=
    App.execute_action_spec
      ({ app with
         selected_action := app.selected_action % app.actions.length,
         action_list_state := some (app.selected_action % app.actions.length) } : App)
      env (app.selected_action % app.actions.length)
  refine ⟨a', ?_, hpend, hlast hne⟩
  unfold App.run_selected_action
  rw [if_neg (by rw [hne]; exact Bool.false_ne_true)]
  simp only [hrisk]
  exact ha

/-- C8, witness: the first catalogue action is Safe; with a successful
command run its prefixed output is the final last-output. -/
theorem C8_safe_action_immediate_witness :
    ∃ a', app0.run_selected_action envExecOk = Except.ok a' ∧
      a'.pending_action = app0.pending_action ∧
      a'.last_output = execMessage
        (app0.actions.getD (app0.selected_action % app0.actions.length) default)
        envExecOk.exec :=
  C8_safe_action_immediate app0 envExecOk rfl rfl

/-! ## C4 -/

/-- An app with two placeholder bots, a pending simple confirmation on
action 0, and the cursor on the second bot. -/
def appC4 : App :=
  { app0 with
    snapshot := { snap0 with bots :=
      [{ name := "a", pair := "A/B", active := true,
         runtime_status := "online", log_path := none, log_tail := [] },
       { name := "b", pair := "A/B", active := true,
         runtime_status := "online", log_path := none, log_tail := [] }] },
    selected_bot := 1, bot_list_state := some 1,
    pending_action := some (.Confirm 0) }

/-- A world whose registry parses to zero bots, with a succeeding
action command. -/
def envC4 : AppEnv :=
  { fs := { pm2 := .spawnError, registry := .parsed [], logsDir := none },
    exec := .finished true (some 0) "ok" "" }

/-- The state after pressing 'y' in `appC4` under `envC4`. -/
def appC4After : App :=
  { appC4 with
    pending_action := none,
    last_output := "[safe] Check Update Status\nok",
    snapshot := snapMalFixture,
    selected_bot := 0, bot_list_state := none }

/-- C4, counterexample: while a confirmation is pending, the input 'y'
(confirmed execution) *does* change `selected_bot` — the silent rebuild
inside `execute_action` clamps it into the new snapshot's range
(2 bots → 0 bots, cursor 1 → 0), contradicting the claim that only the
pending value, last-output and snapshot may change. -/
theorem C4_counterexample :
    appC4.handle_key envC4 (KeyCode.Char 'y') = Except.ok (appC4After, false) ∧
    appC4.selected_bot = 1 ∧ appC4After.selected_bot = 0 := ⟨rfl, rfl, rfl⟩

/-- C4, amended: while a confirmation is pending every key is routed to
`handle_pending_key`; the call never errors and never quits, and the
tab, action selection and catalogue are untouched.  Beyond the pending
value, last-output and snapshot, a confirmed execution may also
re-clamp the bot selection into the rebuilt snapshot's range. -/
theorem C4_modal_exclusivity_amended (app : App) (env : AppEnv)
    (code : KeyCode) (h : app.pending_action.isSome = true) :
    app.handle_key env code = app.handle_pending_key env code ∧
    ∃ a', app.handle_key env code = Except.ok (a', false) ∧
      a'.tab = app.tab ∧ a'.selected_action = app.selected_action ∧
      a'.action_list_state = app.action_list_state ∧
      a'.actions = app.actions := by
  have hroute : app.handle_key env code = app.handle_pending_key env code := by
    unfold App.handle_key
    rw [if_pos h]
  obtain ⟨a', ha, h1, h2, h3, h4⟩ := App.handle_pending_spec app env code
  exact ⟨hroute, a', hroute.trans ha, h1, h2, h3, h4⟩

/-- C4, witness. -/
theorem C4_modal_exclusivity_amended_witness :
    appC4.handle_key envC4 (KeyCode.Char 'q') =
      appC4.handle_pending_key envC4 (KeyCode.Char 'q') ∧
    ∃ a', appC4.handle_key envC4 (KeyCode.Char 'q') = Except.ok (a', false) ∧
      a'.tab = appC4.tab ∧ a'.selected_action = appC4.selected_action ∧
      a'.action_list_state = appC4.action_list_state ∧
      a'.actions = appC4.actions :=
  C4_modal_exclusivity_amended appC4 envC4 (KeyCode.Char 'q') rfl

/-! ## C5 -/

/-- Every Danger-pending typed buffer respects the token-length bound. -/
def typedLenInv (a : App) : Prop :=
  ∀ i t, a.pending_action = some (PendingAction.Danger i t) →
    t.length ≤ DANGER_CONFIRM_TOKEN.length

theorem strPop_length_le (s : String) : (strPop s).length ≤ s.length := by
  cases s with
  | mk data =>
    simp only [strPop, String.toList, String.length, List.length_dropLast]
    omega

theorem App.next_bot_pending (a : App) :
    a.next_bot.pending_action = a.pending_action := by
  unfold App.next_bot
  split <;> rfl

theorem App.prev_bot_pending (a : App) :
    a.prev_bot.pending_action = a.pending_action := by
  unfold App.prev_bot
  split <;> rfl

theorem App.next_action_pending (a : App) :
    a.next_action.pending_action = a.pending_action := by
  unfold App.next_action
  split <;> rfl

theorem App.prev_action_pending (a : App) :
    a.prev_action.pending_action = a.pending_action := by
  unfold App.prev_action
  split <;> rfl

theorem App.next_tab_pending (a : App) :
    a.next_tab.pending_action = a.pending_action := rfl

theorem App.prev_tab_pending (a : App) :
    a.prev_tab.pending_action = a.pending_action := rfl

/-- Characterisation of `run_selected_action` on a non-empty catalogue. -/
theorem App.run_selected_action_eq (a : App) (env : AppEnv)
    (hne : a.actions.isEmpty = false) :
    a.run_selected_action env =
      (match (a.actions.getD (a.selected_action % a.actions.length)
          default).risk with
       | .Safe =>
         ({ a with
            selected_action := a.selected_action % a.actions.length,
            action_list_state := some (a.selected_action % a.actions.length) } :
           App).execute_action env (a.selected_action % a.actions.length)
       | .Confirm =>
         .ok { a with
               selected_action := a.selected_action % a.actions.length,
               action_list_state :=
                 some (a.selected_action % a.actions.length),
               pending_action :=
                 some (.Confirm (a.selected_action % a.actions.length)) }
       | .Danger =>
         .ok { a with
               selected_action := a.selected_action % a.actions.length,
               action_list_state :=
                 some (a.selected_action % a.actions.length),
               pending_action :=
                 some (.Danger (a.selected_action % a.actions.length) "") }) := by
  unfold App.run_selected_action
  rw [if_neg (by rw [hne]; exact Bool.false_ne_true)]

/-- The pending state after `run_selected_action`: unchanged, or a fresh
`Confirm`, or a fresh `Danger` with an empty typed buffer. -/
theorem App.run_selected_action_pending (a : App) (env : AppEnv) (a' : App)
    (h : a.run_selected_action env = .ok a') :
    a'.pending_action = a.pending_action ∨
    (∃ i, a'.pending_action = some (PendingAction.Confirm i)) ∨
    (∃ i, a'.pending_action = some (PendingAction.Danger i "")) := by
  by_cases hne : a.actions.isEmpty = true
  · unfold App.run_selected_action at h
    rw [if_pos hne] at h
    cases h
    left; rfl
  · rw [App.run_selected_action_eq a env (Bool.not_eq_true _ ▸ hne)] at h
    cases hrisk : (a.actions.getD (a.selected_action % a.actions.length)
        default).risk with
    | Safe =>
      rw [hrisk] at h
      obtain ⟨b, hb, hpend, _⟩ := App.execute_action_spec
        ({ a with
           selected_action := a.selected_action % a.actions.length,
           action_list_state := some (a.selected_action % a.actions.length) } :
          App) env (a.selected_action % a.actions.length)
      rw [hb] at h
      cases h
      left
      exact hpend
    | Confirm =>
      rw [hrisk] at h
      cases h
      right; left
      exact ⟨_, rfl⟩
    | Danger =>
      rw [hrisk] at h
      cases h
      right; right
      exact ⟨_, rfl⟩

/-- One key in the modal handler preserves the token-length bound. -/
theorem App.handle_pending_typedLenInv (a : App) (env : AppEnv) (k : KeyCode)
    (hin : typedLenInv a) (a' : App) (q : Bool)
    (h : a.handle_pending_key env k = .ok (a', q)) : typedLenInv a' := by
  unfold App.handle_pending_key at h
  cases hp : a.pending_action with
  | none =>
    rw [hp] at h
    cases h
    exact hin
  | some pending =>
    rw [hp] at h
    cases pending with
    | Confirm action_index =>
      cases k with
      | Char c =>
        simp only [] at h
        by_cases hy : c = 'y' ∨ c = 'Y'
        · rw [if_pos hy] at h
          obtain ⟨b, hb, hpend, _⟩ := App.execute_action_spec
            ({ a with pending_action := none } : App) env action_index
          rw [hb] at h
          cases h
          intro i t hit
          rw [hpend] at hit
          cases hit
        · rw [if_neg hy] at h
          by_cases hn : c = 'n' ∨ c = 'N'
          · rw [if_pos hn] at h
            cases h
            intro i t hit
            cases hit
          · rw [if_neg hn] at h
            cases h
            exact hin
      | Esc => cases h; intro i t hit; cases hit
      | Down => cases h; exact hin
      | Up => cases h; exact hin
      | Left => cases h; exact hin
      | Right => cases h; exact hin
      | Tab => cases h; exact hin
      | Backspace => cases h; exact hin
      | Enter => cases h; exact hin
      | Other => cases h; exact hin
    | Danger action_index typed =>
      have htyped : typed.length ≤ DANGER_CONFIRM_TOKEN.length := hin _ _ hp
      cases k with
      | Char c =>
        simp only [] at h
        by_cases hc : c.isAlphanum = true ∧
            typed.length < DANGER_CONFIRM_TOKEN.length
        · rw [if_pos hc] at h
          cases h
          intro i t hit
          cases hit
          rw [String.length_push]
          omega
        · rw [if_neg hc] at h
          cases h
          exact hin
      | Enter =>
        simp only [] at h
        by_cases ht : typed = DANGER_CONFIRM_TOKEN
        · rw [if_pos ht] at h
          obtain ⟨b, hb, hpend, _⟩ := App.execute_action_spec
            ({ a with pending_action := none } : App) env action_index
          rw [hb] at h
          cases h
          intro i t hit
          rw [hpend] at hit
          cases hit
        · rw [if_neg ht] at h
          cases h
          intro i t hit
          cases hit
          exact htyped
      | Esc => cases h; intro i t hit; cases hit
      | Backspace =>
        cases h
        intro i t hit
        cases hit
        exact le_trans (strPop_length_le typed) htyped
      | Down => cases h; exact hin
      | Up => cases h; exact hin
      | Left => cases h; exact hin
      | Right => cases h; exact hin
      | Tab => cases h; exact hin
      | Other => cases h; exact hin

/-- One key in the top-level handler preserves the token-length bound. -/
theorem App.handle_key_typedLenInv (a : App) (env : AppEnv) (k : KeyCode)
    (hin : typedLenInv a) (a' : App) (q : Bool)
    (h : a.handle_key env k = .ok (a', q)) : typedLenInv a' := by
  unfold App.handle_key at h
  by_cases hs : a.pending_action.isSome = true
  · rw [if_pos hs] at h
    exact App.handle_pending_typedLenInv a env k hin a' q h
  · rw [if_neg hs] at h
    cases k with
    | Char c =>
      simp only [] at h
      by_cases hq : c = 'q'
      · rw [if_pos hq] at h; cases h; exact hin
      · rw [if_neg hq] at h
        by_cases hrr : c = 'r'
        · rw [if_pos hrr] at h
          cases hrf : a.refresh env.fs with
          | ok s =>
            rw [hrf] at h
            have hfr := (App.reload_snapshot_frame a env.fs true s hrf).1
            cases h
            intro i t hit
            exact hin i t (hfr ▸ hit)
          | error e => rw [hrf] at h; cases h
        · rw [if_neg hrr] at h
          by_cases hj : c = 'j'
          · rw [if_pos hj] at h
            cases h
            intro i t hit
            by_cases htab : a.tab = Tab.Scripts
            · rw [if_pos htab] at hit
              exact hin i t (a.next_action_pending ▸ hit)
            · rw [if_neg htab] at hit
              exact hin i t (a.next_bot_pending ▸ hit)
          · rw [if_neg hj] at h
            by_cases hk : c = 'k'
            · rw [if_pos hk] at h
              cases h
              intro i t hit
              by_cases htab : a.tab = Tab.Scripts
              · rw [if_pos htab] at hit
                exact hin i t (a.prev_action_pending ▸ hit)
              · rw [if_neg htab] at hit
                exact hin i t (a.prev_bot_pending ▸ hit)
            · rw [if_neg hk] at h
              by_cases hx : c = 'x'
              · rw [if_pos hx] at h
                cases hrun : a.run_selected_action env with
                | ok s =>
                  rw [hrun] at h
                  rcases App.run_selected_action_pending a env s hrun with
                    hsame | ⟨i, hi⟩ | ⟨i, hi⟩ <;> cases h
                  · intro j u hju
                    exact hin j u (hsame ▸ hju)
                  · intro j u hju
                    rw [hi] at hju
                    cases hju
                  · intro j u hju
                    rw [hi] at hju
                    cases hju
                    exact Nat.zero_le _
                | error e => rw [hrun] at h; cases h
              · rw [if_neg hx] at h
                cases h
                exact hin
    | Down =>
      cases h
      intro i t hit
      by_cases htab : a.tab = Tab.Scripts
      · rw [if_pos htab] at hit
        exact hin i t (a.next_action_pending ▸ hit)
      · rw [if_neg htab] at hit
        exact hin i t (a.next_bot_pending ▸ hit)
    | Up =>
      cases h
      intro i t hit
      by_cases htab : a.tab = Tab.Scripts
      · rw [if_pos htab] at hit
        exact hin i t (a.prev_action_pending ▸ hit)
      · rw [if_neg htab] at hit
        exact hin i t (a.prev_bot_pending ▸ hit)
    | Right => cases h; intro i t hit; exact hin i t (a.next_tab_pending ▸ hit)
    | Tab => cases h; intro i t hit; exact hin i t (a.next_tab_pending ▸ hit)
    | Left => cases h; intro i t hit; exact hin i t (a.prev_tab_pending ▸ hit)
    | Esc => cases h; exact hin
    | Backspace => cases h; exact hin
    | Enter => cases h; exact hin
    | Other => cases h; exact hin

/-- Any key sequence preserves the token-length bound. -/
theorem feedKeys_typedLenInv :
    ∀ (ks : List KeyCode) (a : App) (env : AppEnv),
      typedLenInv a → typedLenInv (feedKeys a env ks)
  | [], a, env, h => h
  | k :: ks, a, env, h => by
    unfold feedKeys
    cases hk : a.handle_key env k with
    | ok p =>
      exact feedKeys_typedLenInv ks p.1 env
        (App.handle_key_typedLenInv a env k h p.1 p.2 hk)
    | error e => exact h

/-- C5: over every input sequence the Danger-pending typed buffer never
exceeds the token's length (6 for `"DELETE"`), and an alphanumeric
character arriving when the buffer is exactly at the bound is silently
dropped — the whole state is returned unchanged. -/
theorem C5_typed_length_bound :
    (∀ (ks : List KeyCode) (app : App) (env : AppEnv),
      typedLenInv app → typedLenInv (feedKeys app env ks)) ∧
    (∀ (app : App) (env : AppEnv) (i : Nat) (t : String) (c : Char),
      app.pending_action = some (PendingAction.Danger i t) →
      t.length = DANGER_CONFIRM_TOKEN.length → c.isAlphanum = true →
      app.handle_key env (KeyCode.Char c) = .ok (app, false)) := by
  refine ⟨feedKeys_typedLenInv, ?_⟩
  intro app env i t c hp ht _
  have hs : app.pending_action.isSome = true := by rw [hp]; rfl
  unfold App.handle_key
  rw [if_pos hs]
  unfold App.handle_pending_key
  rw [hp]
  simp only []
  rw [if_neg (fun hand => absurd (ht ▸ hand.2) (lt_irrefl _))]

/-- A Danger-pending app whose typed buffer is full. -/
def appDangerFull : App :=
  { app0 with pending_action := some (.Danger 5 "ABCDEF") }

/-- C5, witness. -/
theorem C5_typed_length_bound_witness :
    typedLenInv (feedKeys app0 envExecOk [KeyCode.Char 'a']) ∧
    appDangerFull.handle_key envExecOk (KeyCode.Char 'x') =
      .ok (appDangerFull, false) :=
  ⟨C5_typed_length_bound.1 [KeyCode.Char 'a'] app0 envExecOk
      (fun _ _ h => Option.noConfusion h),
   C5_typed_length_bound.2 appDangerFull envExecOk 5 "ABCDEF" 'x' rfl rfl rfl⟩

/-! ## C3 -/

theorem push_append_mk (t : String) (u : Char) (l : List Char) :
    (t.push u) ++ String.mk l = t ++ String.mk (u :: l) := by
  cases t with
  | mk d =>
    show String.mk ((d ++ [u]) ++ l) = String.mk (d ++ (u :: l))
    rw [List.append_assoc]
    rfl

/-- One step of `feedKeys` under a known successful `handle_key`. -/
theorem feedKeys_cons_ok {a : App} {env : AppEnv} {k : KeyCode} {a' : App}
    {q : Bool} (h : a.handle_key env k = .ok (a', q)) (ks : List KeyCode) :
    feedKeys a env (k :: ks) = feedKeys a' env ks := by
  show (match a.handle_key env k with
        | .ok (b, _) => feedKeys b env ks
        | .error _ => a) = feedKeys a' env ks
  rw [h]

/-- Feeding alphanumeric characters while Danger-pending appends their
upper-cased forms to the typed buffer (as long as the bound allows),
leaving all other state untouched. -/
theorem feed_alnum_chars :
    ∀ (cs : List Char) (app : App) (env : AppEnv) (idx : Nat) (t : String)
      (ks : List KeyCode),
      app.pending_action = some (PendingAction.Danger idx t) →
      (∀ c ∈ cs, c.isAlphanum = true) →
      t.length + cs.length ≤ DANGER_CONFIRM_TOKEN.length →
      feedKeys app env (cs.map KeyCode.Char ++ ks) =
        feedKeys
          { app with pending_action := some (PendingAction.Danger idx
              (t ++ String.mk (cs.map Char.toUpper))) } env ks
  | [], app, env, idx, t, ks, hp, _, _ => by
    rw [List.map_nil, List.nil_append, List.map_nil]
    have ht : t ++ String.mk [] = t := String.append_empty t
    rw [ht, App.update_pending_self app _ hp]
  | c :: cs, app, env, idx, t, ks, hp, halnum, hlen => by
    have hc : c.isAlphanum = true := halnum c (List.mem_cons_self c cs)
    have hlt : t.length < DANGER_CONFIRM_TOKEN.length := by
      rw [List.length_cons] at hlen
      omega
    have hs : app.pending_action.isSome = true := by rw [hp]; rfl
    have hk : app.handle_key env (KeyCode.Char c) =
        .ok ({ app with
               pending_action :=
                 some (PendingAction.Danger idx (t.push c.toUpper)) },
             false) := by
      unfold App.handle_key
      rw [if_pos hs]
      unfold App.handle_pending_key
      rw [hp]
      simp only []
      rw [if_pos ⟨hc, hlt⟩]
    rw [List.map_cons, List.cons_append, feedKeys_cons_ok hk]
    have hrec := feed_alnum_chars cs
      ({ app with
         pending_action :=
           some (PendingAction.Danger idx (t.push c.toUpper)) } : App)
      env idx (t.push c.toUpper) ks rfl
      (fun x hx => halnum x (List.mem_cons_of_mem c hx))
      (by rw [String.length_push]; rw [List.length_cons] at hlen; omega)
    rw [hrec, push_append_mk]
    rfl

/-- An app armed with the Danger action "Clear Logs" (index 5), empty
typed buffer. -/
def appDanger : App :=
  { app0 with
    tab := .Scripts,
    selected_action := 5,
    action_list_state := some 5,
    pending_action := some (.Danger 5 "") }

/-- An action environment whose command succeeds printing `done`. -/
def envDone : AppEnv :=
  { fs := fsAbsent, exec := .finished true (some 0) "done" "" }

/-- C3, counterexample: typing the wrong-case variant `delete` (a
sequence that is not the token before upper-casing) and pressing Enter
*does* execute the stored Danger action — each character is upper-cased
on entry (app.rs:270), so the buffer reaches `DELETE`: afterwards the
pending state is cleared and last-output holds the action's own result. -/
theorem C3_counterexample :
    (feedKeys appDanger envDone
      [KeyCode.Char 'd', KeyCode.Char 'e', KeyCode.Char 'l', KeyCode.Char 'e',
       KeyCode.Char 't', KeyCode.Char 'e', KeyCode.Enter]).pending_action =
      none ∧
    (feedKeys appDanger envDone
      [KeyCode.Char 'd', KeyCode.Char 'e', KeyCode.Char 'l', KeyCode.Char 'e',
       KeyCode.Char 't', KeyCode.Char 'e', KeyCode.Enter]).last_output =
      "[danger] Clear Logs\ndone" ∧
    ("delete" : String) ≠ DANGER_CONFIRM_TOKEN :=
  ⟨rfl, rfl, by decide⟩

/-- C3, amended: Enter executes the stored action iff the typed buffer
equals `DELETE` exactly; on mismatch the pending state and buffer are
kept and only a mismatch notice is set; no strict prefix of the token
leads to execution on submit.  (The original claim's wrong-case clause
is false: characters are upper-cased as they are typed, so a wrong-case
variant of the token becomes `DELETE` and does execute — see the
counterexample.) -/
theorem C3_danger_submit_amended :
    (∀ (app : App) (env : AppEnv) (idx : Nat) (t : String),
      app.pending_action = some (PendingAction.Danger idx t) →
      t ≠ DANGER_CONFIRM_TOKEN →
      app.handle_pending_key env KeyCode.Enter =
        .ok ({ app with last_output := "Confirmation token mismatch. Type " ++
                DANGER_CONFIRM_TOKEN ++ " and press Enter." }, false)) ∧
    (∀ (app : App) (env : AppEnv) (idx : Nat),
      app.pending_action =
        some (PendingAction.Danger idx DANGER_CONFIRM_TOKEN) →
      ∃ a', app.handle_pending_key env KeyCode.Enter = .ok (a', false) ∧
        a'.pending_action = none ∧
        (app.actions.isEmpty = false →
          a'.last_output = execMessage (app.actions.getD idx default)
            env.exec)) ∧
    (∀ (app : App) (env : AppEnv) (idx : Nat) (cs : List Char),
      app.pending_action = some (PendingAction.Danger idx "") →
      cs <+: DANGER_CONFIRM_TOKEN.toList →
      cs ≠ DANGER_CONFIRM_TOKEN.toList →
      feedKeys app env (cs.map KeyCode.Char ++ [KeyCode.Enter]) =
        { app with
          pending_action := some (PendingAction.Danger idx (String.mk cs)),
          last_output := "Confirmation token mismatch. Type " ++
            DANGER_CONFIRM_TOKEN ++ " and press Enter." }) := by
  have hmismatch : ∀ (app : App) (env : AppEnv) (idx : Nat) (t : String),
      app.pending_action = some (PendingAction.Danger idx t) →
      t ≠ DANGER_CONFIRM_TOKEN →
      app.handle_pending_key env KeyCode.Enter =
        .ok ({ app with last_output := "Confirmation token mismatch. Type " ++
                DANGER_CONFIRM_TOKEN ++ " and press Enter." }, false) := by
    intro app env idx t hp hne
    unfold App.handle_pending_key
    rw [hp]
    simp only []
    rw [if_neg hne]
  refine ⟨hmismatch, ?_, ?_⟩
  · intro app env idx hp
    obtain ⟨b, hb, hpend, _, _, hact, _, hlast⟩ := App.execute_action_spec
      ({ app with pending_action := none } : App) env idx
    refine ⟨b, ?_, hpend, hlast⟩
    unfold App.handle_pending_key
    rw [hp]
    simp only []
    rw [hb]
    simp only [if_true]
  · intro app env idx cs hp hpre hne
    have hcases : ∀ c ∈ cs, c = 'D' ∨ c = 'E' ∨ c = 'L' ∨ c = 'T' := by
      intro c hc
      have hmem : c ∈ DANGER_CONFIRM_TOKEN.toList := hpre.subset hc
      have hlist : DANGER_CONFIRM_TOKEN.toList =
          ['D', 'E', 'L', 'E', 'T', 'E'] := rfl
      rw [hlist] at hmem
      simp only [List.mem_cons, List.not_mem_nil, or_false] at hmem
      rcases hmem with rfl | rfl | rfl | rfl | rfl | rfl <;> simp
    have halnum : ∀ c ∈ cs, c.isAlphanum = true := by
      intro c hc
      rcases hcases c hc with rfl | rfl | rfl | rfl <;> decide
    have hupper : cs.map Char.toUpper = cs := by
      have hstable : ∀ c ∈ cs, c.toUpper = c := by
        intro c hc
        rcases hcases c hc with rfl | rfl | rfl | rfl <;> decide
      rw [List.map_congr_left hstable]
      exact List.map_id' cs
    have hlen : ("" : String).length + cs.length ≤
        DANGER_CONFIRM_TOKEN.length := by
      have := hpre.length_le
      simpa using this
    have hfeed := feed_alnum_chars cs app env idx "" [KeyCode.Enter]
      hp halnum hlen
    rw [hupper] at hfeed
    have hmk : ("" : String) ++ String.mk cs = String.mk cs := rfl
    rw [hmk] at hfeed
    rw [hfeed]
    have hmkne : String.mk cs ≠ DANGER_CONFIRM_TOKEN := by
      intro hh
      exact hne (congrArg String.toList hh)
    have happ := hmismatch
      ({ app with
         pending_action := some (PendingAction.Danger idx (String.mk cs)) } :
        App)
      env idx (String.mk cs) rfl hmkne
    have hkey : ({ app with
        pending_action := some (PendingAction.Danger idx (String.mk cs)) } :
          App).handle_key env KeyCode.Enter =
        .ok ({ ({ app with
                  pending_action :=
                    some (PendingAction.Danger idx (String.mk cs)) } : App) with
               last_output := "Confirmation token mismatch. Type " ++
                 DANGER_CONFIRM_TOKEN ++ " and press Enter." }, false) := by
      unfold App.handle_key
      simp only [Option.isSome_some, eq_self_iff_true, if_true]
      exact happ
    rw [feedKeys_cons_ok hkey]
    rfl

/-- C3, witness: a wrong buffer `DEL` mismatches; the full token
executes; the strict prefix `DEL` typed from scratch does not execute. -/
theorem C3_danger_submit_amended_witness :
    ({ app0 with pending_action := some (.Danger 5 "DEL") } :
        App).handle_pending_key envDone KeyCode.Enter =
      .ok ({ ({ app0 with pending_action := some (.Danger 5 "DEL") } : App) with
             last_output := "Confirmation token mismatch. Type " ++
               DANGER_CONFIRM_TOKEN ++ " and press Enter." }, false) ∧
    (∃ a', ({ app0 with pending_action := some (.Danger 5 DANGER_CONFIRM_TOKEN) } :
        App).handle_pending_key envDone KeyCode.Enter = .ok (a', false) ∧
      a'.pending_action = none ∧
      (({ app0 with
          pending_action := some (.Danger 5 DANGER_CONFIRM_TOKEN) } :
            App).actions.isEmpty = false →
        a'.last_output = execMessage
          (({ app0 with
              pending_action := some (.Danger 5 DANGER_CONFIRM_TOKEN) } :
                App).actions.getD 5 default)
          envDone.exec)) ∧
    feedKeys appDanger envDone
      (['D', 'E', 'L'].map KeyCode.Char ++ [KeyCode.Enter]) =
      { appDanger with
        pending_action :=
          some (PendingAction.Danger 5 (String.mk ['D', 'E', 'L'])),
        last_output := "Confirmation token mismatch. Type " ++
          DANGER_CONFIRM_TOKEN ++ " and press Enter." } :=
  ⟨C3_danger_submit_amended.1 _ envDone 5 "DEL" rfl (by decide),
   C3_danger_submit_amended.2.1 _ envDone 5 rfl,
   C3_danger_submit_amended.2.2 appDanger envDone 5 ['D', 'E', 'L']
     rfl (by decide) (by decide)⟩

/-! ## C6 -/

/-- The claim's resolution rule for `runtimeStatus`: the supervisor's
live status when present, else `"not-running"` when declared active,
else `"disabled"`. -/
def runtimeStatusSpec (pm2_map : List (String × String)) (name : String)
    (configActive : Bool) : String :=
  match alistLookup pm2_map name with
  | some st => st
  | none => if configActive then "not-running" else "disabled"

/-- C6: each registry entry produces, at its own position, a `BotStatus`
whose `runtime_status` follows the live/not-running/disabled precedence
and whose `pair` is the sentinel exactly when an asset is empty; the
warning count is the pm2 baseline plus one per empty-asset entry plus
one per bot with a log error marker. -/
theorem C6_bot_status_resolution (env : Env) (entries : List BotEntry)
    (s : Snapshot) (hreg : env.registry = RegistryState.parsed entries)
    (hs : load_snapshot env = Except.ok s) :
    s.bots.length = entries.length ∧
    (∀ i e, entries.get? i = some e →
      ∃ b, s.bots.get? i = some b ∧
        b.runtime_status =
          runtimeStatusSpec (load_pm2_status env.pm2).1 (entryName i e)
            (e.active.getD true) ∧
        b.pair = (if pairBad e then "?/ ?"
                  else e.asset_a ++ "/" ++ e.asset_b)) ∧
    s.warnings = pm2Warn env + entries.countP pairBad +
      s.bots.countP (fun b => b.log_tail.any has_error_marker) := by
  rw [load_snapshot_parsed env entries hreg] at hs
  cases hs
  simp only []
  refine ⟨?_, ?_, ?_⟩
  · rw [List.length_map, List.enum_length]
  · intro i e hie
    refine ⟨mkBot (load_pm2_status env.pm2).1 env (i, e), ?_, rfl, rfl⟩
    rw [List.get?_map, List.get?_enum, hie]
    rfl
  · have heq : entries.enum.map (entryWarnCount (load_pm2_status env.pm2).1 env)
        = entries.enum.map (fun ie =>
            (if pairBad ie.2 then 1 else 0) +
            (if (mkBot (load_pm2_status env.pm2).1 env ie).log_tail.any
                has_error_marker then 1 else 0)) := rfl
    rw [heq, sum_map_add]
    have h2 : entries.enum.map (fun ie => if pairBad ie.2 then 1 else 0) =
        (entries.enum.map Prod.snd).map
          (fun e => if pairBad e then 1 else 0) := by
      rw [List.map_map]
      rfl
    have h3 : entries.enum.map (fun ie =>
          if (mkBot (load_pm2_status env.pm2).1 env ie).log_tail.any
            has_error_marker then 1 else 0) =
        (entries.enum.map (mkBot (load_pm2_status env.pm2).1 env)).map
          (fun b => if b.log_tail.any has_error_marker then 1 else 0) := by
      rw [List.map_map]
      rfl
    rw [h2, h3, List.enum_map_snd, sum_map_ite_eq_countP,
      sum_map_ite_eq_countP, Nat.add_assoc]

/-- A two-entry registry: one well-formed active bot known to pm2, one
nameless disabled bot with an empty asset. -/
def entriesEx : List BotEntry :=
  [{ name := some "alpha", asset_a := "BTC", asset_b := "USDT",
     active := some true },
   { name := none, asset_a := "", asset_b := "X", active := some false }]

def envParsed : Env :=
  { pm2 := .items [{ name := some "alpha", status := some "online" }],
    registry := .parsed entriesEx, logsDir := none }

/-- The snapshot `load_snapshot` builds in `envParsed`. -/
def snapParsed : Snapshot :=
  { bots :=
      [{ name := "alpha", pair := "BTC/USDT", active := true,
         runtime_status := "online", log_path := none, log_tail := [] },
       { name := "bot-2", pair := "?/ ?", active := false,
         runtime_status := "disabled", log_path := none, log_tail := [] }],
    warnings := 1, pm2_online := true, pm2_processes := 1, alerts := [] }

/-- C6, witness. -/
theorem C6_bot_status_resolution_witness :
    snapParsed.bots.length = entriesEx.length ∧
    (∀ i e, entriesEx.get? i = some e →
      ∃ b, snapParsed.bots.get? i = some b ∧
        b.runtime_status =
          runtimeStatusSpec (load_pm2_status envParsed.pm2).1 (entryName i e)
            (e.active.getD true) ∧
        b.pair = (if pairBad e then "?/ ?"
                  else e.asset_a ++ "/" ++ e.asset_b)) ∧
    snapParsed.warnings = pm2Warn envParsed + entriesEx.countP pairBad +
      snapParsed.bots.countP (fun b => b.log_tail.any has_error_marker) :=
  C6_bot_status_resolution envParsed entriesEx snapParsed rfl rfl

/-! ## C7 -/

instance : IsTotal LogFile (fun a b => a.mtime ≤ b.mtime) :=
  ⟨fun a b => Nat.le_total a.mtime b.mtime⟩

instance : IsTrans LogFile (fun a b => a.mtime ≤ b.mtime) :=
  ⟨fun _ _ _ hab hbc => Nat.le_trans hab hbc⟩

/-- `find?` on a list sorted by descending mtime returns a match of
maximal mtime. -/
theorem find_desc_max (p : LogFile → Bool) :
    ∀ l : List LogFile, l.Pairwise (fun a b => b.mtime ≤ a.mtime) →
      ∀ f, l.find? p = some f → ∀ g ∈ l, p g = true → g.mtime ≤ f.mtime
  | [], _, f, h => by cases h
  | a :: l, hp, f, h => by
    by_cases hpa : p a = true
    · simp only [List.find?_cons, hpa] at h
      cases h
      intro g hg hpg
      rcases List.mem_cons.mp hg with rfl | hgl
      · exact le_refl _
      · exact (List.pairwise_cons.mp hp).1 g hgl
    · rw [Bool.not_eq_true] at hpa
      simp only [List.find?_cons, hpa] at h
      intro g hg hpg
      rcases List.mem_cons.mp hg with rfl | hgl
      · rw [hpg] at hpa; cases hpa
      · exact find_desc_max p l (List.pairwise_cons.mp hp).2 f h g hgl hpg


/-- C7: (1) a missing logs directory resolves to none; (2) an exact
`<name>.log` file wins regardless of modification times; (3) otherwise
the result, if any, is a `.log` file whose name case-insensitively
contains the bot name and whose mtime is maximal among all such files,
and it is none exactly when no file matches. -/
theorem C7_log_path_resolution (env : Env) (name : String) :
    (env.logsDir = none → resolve_bot_log_path env name = none) ∧
    (∀ files, env.logsDir = some files →
      (files.any (fun f => f.fname = name ++ ".log") = true →
        resolve_bot_log_path env name =
          some ("profiles/logs/" ++ name ++ ".log")) ∧
      (files.any (fun f => f.fname = name ++ ".log") = false →
        (∀ p, resolve_bot_log_path env name = some p →
          ∃ f ∈ files, p = "profiles/logs/" ++ f.fname ∧
            isLogFileName f.fname = true ∧ nameMatches name f = true ∧
            ∀ g ∈ files, isLogFileName g.fname = true →
              nameMatches name g = true → g.mtime ≤ f.mtime) ∧
        (resolve_bot_log_path env name = none →
          ∀ g ∈ files, isLogFileName g.fname = true →
            nameMatches name g = false))) := by
  constructor
  · intro h
    unfold resolve_bot_log_path
    rw [h]
  · intro files hdir
    constructor
    · intro hany
      unfold resolve_bot_log_path
      rw [hdir]
      simp only []
      rw [if_pos hany]
    · intro hany
      have hres : resolve_bot_log_path env name =
          ((List.insertionSort (fun a b => a.mtime ≤ b.mtime)
            (files.filter (fun f => isLogFileName f.fname))).reverse.find?
            (nameMatches name)).map (fun f => "profiles/logs/" ++ f.fname) := by
        unfold resolve_bot_log_path
        rw [hdir]
        simp only []
        rw [if_neg (by rw [hany]; exact Bool.false_ne_true)]
      have hdesc : (List.insertionSort (fun a b => a.mtime ≤ b.mtime)
          (files.filter (fun f => isLogFileName f.fname))).reverse.Pairwise
          (fun a b => b.mtime ≤ a.mtime) := by
        rw [List.pairwise_reverse]
        exact List.sorted_insertionSort _ _
      constructor
      · intro p hp
        rw [hres] at hp
        cases hf : (List.insertionSort (fun a b => a.mtime ≤ b.mtime)
            (files.filter (fun f => isLogFileName f.fname))).reverse.find?
            (nameMatches name) with
        | none => rw [hf] at hp; cases hp
        | some f =>
          rw [hf] at hp
          cases hp
          have hfs := List.mem_of_find?_eq_some hf
          have hfsorted := List.mem_reverse.mp hfs
          have hfcand := ((List.perm_insertionSort
            (fun (a b : LogFile) => a.mtime ≤ b.mtime) _).mem_iff).mp hfsorted
          obtain ⟨hffiles, hflog⟩ := List.mem_filter.mp hfcand
          refine ⟨f, hffiles, rfl, hflog, List.find?_some hf, ?_⟩
          intro g hg hglog hgmatch
          have hgrev : g ∈ (List.insertionSort (fun a b => a.mtime ≤ b.mtime)
              (files.filter (fun f => isLogFileName f.fname))).reverse := by
            rw [List.mem_reverse]
            exact ((List.perm_insertionSort
              (fun (a b : LogFile) => a.mtime ≤ b.mtime) _).mem_iff).mpr
              (List.mem_filter.mpr ⟨hg, hglog⟩)
          exact find_desc_max (nameMatches name) _ hdesc f hf g hgrev hgmatch
      · intro hnone g hg hglog
        rw [hres] at hnone
        cases hf : (List.insertionSort (fun a b => a.mtime ≤ b.mtime)
            (files.filter (fun f => isLogFileName f.fname))).reverse.find?
            (nameMatches name) with
        | some f => rw [hf] at hnone; cases hnone
        | none =>
          have hgrev : g ∈ (List.insertionSort (fun a b => a.mtime ≤ b.mtime)
              (files.filter (fun f => isLogFileName f.fname))).reverse := by
            rw [List.mem_reverse]
            exact ((List.perm_insertionSort
              (fun (a b : LogFile) => a.mtime ≤ b.mtime) _).mem_iff).mpr
              (List.mem_filter.mpr ⟨hg, hglog⟩)
          have hnotp := List.find?_eq_none.mp hf g hgrev
          exact Bool.eq_false_iff.mpr hnotp

/-- A logs directory with no exact `alpha.log`, where the newest
case-insensitive match is `ALPHA-old.log` (mtime 99). -/
def logsFiles : List LogFile :=
  [{ fname := "beta.log", mtime := 5, content := "x" },
   { fname := "ALPHA-old.log", mtime := 99, content := "y" },
   { fname := "xalphax.log", mtime := 50, content := "z" }]

def envLogsScan : Env :=
  { pm2 := .spawnError, registry := .absent, logsDir := some logsFiles }

/-- A logs directory where the exact `alpha.log` exists but an older
name matches with a newer mtime. -/
def envLogsFast : Env :=
  { pm2 := .spawnError, registry := .absent,
    logsDir := some
      [{ fname := "alpha.log", mtime := 5, content := "x" },
       { fname := "alpha-old.log", mtime := 99, content := "y" }] }

/-- C7, witness: the exact-name fast path wins over a newer substring
match, and the scan picks the most-recently-modified match. -/
theorem C7_log_path_resolution_witness :
    resolve_bot_log_path envLogsFast "alpha" =
      some ("profiles/logs/" ++ "alpha" ++ ".log") ∧
    (∃ f ∈ logsFiles, ("profiles/logs/ALPHA-old.log" : String) =
        "profiles/logs/" ++ f.fname ∧ isLogFileName f.fname = true ∧
        nameMatches "alpha" f = true ∧
        ∀ g ∈ logsFiles, isLogFileName g.fname = true →
          nameMatches "alpha" g = true → g.mtime ≤ f.mtime) :=
  ⟨((C7_log_path_resolution envLogsFast "alpha").2 _ rfl).1 rfl,
   (((C7_log_path_resolution envLogsScan "alpha").2 logsFiles rfl).2 rfl).1
     "profiles/logs/ALPHA-old.log" rfl⟩

end Dashboard
